import Mathlib

/-!
Shallow embedding of the String Analyzer API (src/index.ts).

A JavaScript string is modelled as its sequence of Unicode code points
(`JSStr := List Nat`); lone surrogates are permitted, as in JavaScript.
Operations of the source that work on the UTF-16 representation
(`String.prototype.length`, `split('')`, `includes`) are modelled through an
explicit encoder `utf16` from code points to code units.
-/

abbrev JSStr := List Nat

/-- UTF-16 encoding: a code point below 0x10000 is one code unit, any other
code point is a surrogate pair. -/
def utf16 : JSStr → List Nat
  | [] => []
  | c :: cs =>
    if c < 0x10000 then c :: utf16 cs
    else (0xD800 + (c - 0x10000) / 0x400) :: (0xDC00 + (c - 0x10000) % 0x400) :: utf16 cs

/-- JavaScript `value.length`: the number of UTF-16 code units. -/
def jsLength (v : JSStr) : Nat := (utf16 v).length

/-- Code points of an ASCII string literal, used to transcribe the string
literals of the source. -/
def ascii (s : String) : List Nat := s.data.map Char.toNat

/-- Models ECMAScript `toLowerCase` per code point, restricted to its ASCII
fragment (identity on all other code points; every cased literal appearing in
the source and in the analysed claims is ASCII). -/
def jsToLowerCP (c : Nat) : Nat := if 0x41 ≤ c ∧ c ≤ 0x5A then c + 0x20 else c

/-- The white-space/line-terminator set shared by `trim`, `\s` and the
`StrWhiteSpace` production used by `parseInt`. -/
def jsIsWS (c : Nat) : Bool :=
  c == 0x9 || c == 0xA || c == 0xB || c == 0xC || c == 0xD || c == 0x20 ||
  c == 0xA0 || c == 0x1680 || (0x2000 ≤ c && c ≤ 0x200A) || c == 0x2028 ||
  c == 0x2029 || c == 0x202F || c == 0x205F || c == 0x3000 || c == 0xFEFF

def isDigitCP (c : Nat) : Bool := decide (0x30 ≤ c ∧ c ≤ 0x39)

def digitsVal (ds : List Nat) : Nat := ds.foldl (fun acc d => acc * 10 + (d - 0x30)) 0

def digitsValOf (s : JSStr) : Option Nat :=
  let ds := s.takeWhile isDigitCP
  if ds = [] then none else some (digitsVal ds)

/-- `parseInt(s, 10)`: skip leading white space, optional sign, value of the
longest digit run; `none` models `NaN`. -/
def jsParseInt (s : JSStr) : Option Int :=
  let t := s.dropWhile jsIsWS
  match t with
  | [] => none
  | c :: rest =>
    if c = 0x2D then (digitsValOf rest).map (fun n => -(n : Int))
    else if c = 0x2B then (digitsValOf rest).map (fun n => (n : Int))
    else (digitsValOf t).map (fun n => (n : Int))

/-- `dropPat pat s` strips `pat` from the front of `s` when it is a prefix. -/
def dropPat : List Nat → List Nat → Option (List Nat)
  | [], s => some s
  | _ :: _, [] => none
  | p :: ps, c :: cs => if p = c then dropPat ps cs else none

/-- Contiguous-substring test on code-unit lists. -/
def isSub (pat : List Nat) : List Nat → Bool
  | [] => (dropPat pat []).isSome
  | c :: cs => (dropPat pat (c :: cs)).isSome || isSub pat cs

/-- JavaScript `hay.includes(pat)`: substring search over the UTF-16 code
units of the two strings. -/
def includesStr (hay pat : JSStr) : Bool := isSub (utf16 pat) (utf16 hay)

/-- `value.trim().split(/\s+/).filter(w => w.length > 0).length`: the number
of maximal runs of non-white-space code points. -/
def countWords (v : JSStr) : Nat :=
  (v.foldl (fun (st : Nat × Bool) c =>
    if jsIsWS c then (st.1, false)
    else if st.2 then st else (st.1 + 1, true)) (0, false)).1

/-- One update step of `character_frequency_map[char] = (character_frequency_map[char] || 0) + 1`,
on the association list that models the frequency object (keys are single code
points, in first-occurrence order). -/
def bump : List (Nat × Nat) → Nat → List (Nat × Nat)
  | [], c => [(c, 1)]
  | (k, n) :: rest, c => if k = c then (k, n + 1) :: rest else (k, n) :: bump rest c

structure StringProperties where
  length : Nat
  is_palindrome : Bool
  unique_characters : Nat
  word_count : Nat
  sha256_hash : JSStr
  character_frequency_map : List (Nat × Nat)

deriving instance DecidableEq, Repr for StringProperties

/-- `analyzeString` of src/index.ts. The sha256 primitive is an external
collaborator, passed in as `hash`. `new Set(value).size` is the number of
distinct code points (`value.dedup.length`); the `for...of` loop of the
frequency map iterates code points; `value.length` and the
`split('').reverse().join('')` palindrome test work on UTF-16 code units. -/
def analyzeString (hash : JSStr → JSStr) (value : JSStr) : StringProperties :=
  let length := jsLength value
  let is_palindrome :=
    let lowerValue := utf16 (value.map jsToLowerCP)
    lowerValue == lowerValue.reverse
  let unique_characters := value.dedup.length
  let word_count := countWords value
  let sha256_hash := hash value
  let character_frequency_map := value.foldl bump []
  ⟨length, is_palindrome, unique_characters, word_count, sha256_hash,
    character_frequency_map⟩

structure StoredString where
  id : JSStr
  value : JSStr
  properties : StringProperties
  created_at : Nat

deriving instance DecidableEq, Repr for StoredString

inductive Err where
  | MissingField
  | InvalidType
  | Conflict
  | NotFound
  | BadQuery
  | ConflictingFilters
  | InvalidFilterValue (which : String)

deriving instance DecidableEq, Repr for Err

instance {ε α : Type} [DecidableEq ε] [DecidableEq α] : DecidableEq (Except ε α) :=
  fun x y =>
    match x, y with
    | .error a, .error b => decidable_of_iff (a = b) (by simp)
    | .ok a, .ok b => decidable_of_iff (a = b) (by simp)
    | .error _, .ok _ => isFalse (fun h => Except.noConfusion h)
    | .ok _, .error _ => isFalse (fun h => Except.noConfusion h)

/-- `POST /strings`: the store is the `Map` in insertion order; `has` then
`set` become a scan then an append. The `value` field checks (`MissingField`,
`InvalidType`) precede this model, which receives a string. Returns the
response and the store after the request. -/
def postStrings (hash : JSStr → JSStr) (now : Nat) (store : List StoredString)
    (v : JSStr) : Except Err StoredString × List StoredString :=
  let properties := analyzeString hash v
  let id := properties.sha256_hash
  if store.any (fun r => r.id == id) then (Except.error Err.Conflict, store)
  else
    let newString : StoredString := ⟨id, v, properties, now⟩
    (Except.ok newString, store ++ [newString])

structure StructQuery where
  is_palindrome : Option JSStr
  min_length : Option JSStr
  max_length : Option JSStr
  word_count : Option JSStr
  contains_character : Option JSStr

/-- Last block of `GET /strings`: the `contains_character` filter. -/
def containsStage (q : StructQuery) (d : List StoredString) :
    Except Err (List StoredString) :=
  match q.contains_character with
  | none => Except.ok d
  | some s =>
    if jsLength s ≠ 1 then Except.error (Err.InvalidFilterValue "contains_character")
    else Except.ok (d.filter (fun r => includesStr r.value s))

/-- `word_count` block of `GET /strings`, then the later blocks. -/
def wordCountStage (q : StructQuery) (d : List StoredString) :
    Except Err (List StoredString) :=
  match q.word_count with
  | none => containsStage q d
  | some s =>
    match jsParseInt s with
    | none => Except.error (Err.InvalidFilterValue "word_count")
    | some n => containsStage q (d.filter (fun r => (r.properties.word_count : Int) == n))

/-- `max_length` block of `GET /strings`, then the later blocks. -/
def maxLengthStage (q : StructQuery) (d : List StoredString) :
    Except Err (List StoredString) :=
  match q.max_length with
  | none => wordCountStage q d
  | some s =>
    match jsParseInt s with
    | none => Except.error (Err.InvalidFilterValue "max_length")
    | some n => wordCountStage q (d.filter (fun r => decide ((r.properties.length : Int) ≤ n)))

/-- `min_length` block of `GET /strings`, then the later blocks. -/
def minLengthStage (q : StructQuery) (d : List StoredString) :
    Except Err (List StoredString) :=
  match q.min_length with
  | none => maxLengthStage q d
  | some s =>
    match jsParseInt s with
    | none => Except.error (Err.InvalidFilterValue "min_length")
    | some n => maxLengthStage q (d.filter (fun r => decide (n ≤ (r.properties.length : Int))))

/-- `GET /strings`: `is_palindrome` is compared against the literal `true`
(any other text is treated as `false`), then the remaining filter blocks run
in source order. The response `count` and `filters_applied` echo are shaped
from this data and are not modelled separately. -/
def getStrings (store : List StoredString) (q : StructQuery) :
    Except Err (List StoredString) :=
  let d :=
    match q.is_palindrome with
    | none => store
    | some s => store.filter (fun r => r.properties.is_palindrome == (s == ascii "true"))
  minLengthStage q d

structure NLFilters where
  word_count : Option Nat
  is_palindrome : Option Bool
  contains_character : Option JSStr
  min_length : Option Nat

deriving instance DecidableEq, Repr for NLFilters

def emptyNLFilters : NLFilters := ⟨none, none, none, none⟩

/-- The scan of `lowerQuery.match(/longer than (\d+) characters/)` at one
position: literal `longer than `, a non-empty greedy digit run, literal
` characters`; yields the numeric value of the digit run (the source applies
`parseInt` to the captured digits, whose value this is). -/
def matchHere (s : List Nat) : Option Nat :=
  match dropPat (ascii "longer than ") s with
  | none => none
  | some rest =>
    if rest.takeWhile isDigitCP = [] then none
    else
      match dropPat (ascii " characters") (rest.dropWhile isDigitCP) with
      | none => none
      | some _ => some (digitsVal (rest.takeWhile isDigitCP))

/-- Leftmost match of `/longer than (\d+) characters/` over the code units. -/
def findLongerThan : List Nat → Option Nat
  | [] => none
  | c :: cs =>
    match matchHere (c :: cs) with
    | some n => some n
    | none => findLongerThan cs

/-- The rule table of `GET /strings/filter-by-natural-language`, applied to
the lower-cased query, in source order. -/
def parseNLFilters (lq : JSStr) : NLFilters :=
  let f0 := emptyNLFilters
  let f1 := if includesStr lq (ascii "single word") then
      { f0 with word_count := some 1 } else f0
  let f2 := if includesStr lq (ascii "palindromic") && !includesStr lq (ascii "not palindromic") then
      { f1 with is_palindrome := some true } else f1
  let f3 := if includesStr lq (ascii "not palindromic") then
      { f2 with is_palindrome := some false } else f2
  let f4 := if includesStr lq (ascii "first vowel") then
      { f3 with contains_character := some (ascii "a") } else f3
  let f5 := if includesStr lq (ascii "letter z") then
      { f4 with contains_character := some (ascii "z") } else f4
  if includesStr lq (ascii "longer than") then
    match findLongerThan (utf16 lq) with
    | some n => { f5 with min_length := some (n + 1) }
    | none => f5
  else f5

structure InterpretedQuery where
  original : JSStr
  parsed_filters : NLFilters

deriving instance DecidableEq, Repr for InterpretedQuery

structure NLResult where
  data : List StoredString
  count : Nat
  interpreted_query : InterpretedQuery

deriving instance DecidableEq, Repr for NLResult

/-- `GET /strings/filter-by-natural-language`. `!query` rejects exactly the
empty string within this model (`typeof query !== 'string'` concerns
non-string transport values, outside the model). The parsed filters are
applied in source order and the conflict check runs after filtering, before
the response; an error response carries no data. -/
def nlHandler (store : List StoredString) (q : JSStr) : Except Err NLResult :=
  if q = [] then Except.error Err.BadQuery
  else
    let lq := q.map jsToLowerCP
    let pf := parseNLFilters lq
    let d1 :=
      match pf.word_count with
      | some n => store.filter (fun r => r.properties.word_count == n)
      | none => store
    let d2 :=
      match pf.is_palindrome with
      | some b => d1.filter (fun r => r.properties.is_palindrome == b)
      | none => d1
    let d3 :=
      match pf.min_length with
      | some n => d2.filter (fun r => decide (n ≤ r.properties.length))
      | none => d2
    let d4 :=
      match pf.contains_character with
      | some s => d3.filter (fun r => includesStr r.value s)
      | none => d3
    if pf.word_count = some 1 ∧ pf.is_palindrome = some false then
      Except.error Err.ConflictingFilters
    else Except.ok ⟨d4, d4.length, ⟨q, pf⟩⟩

/-- A stored record as built by the insertion path, with the hash primitive
instantiated to the identity function, used for concrete stores. -/
def mkRec (v : JSStr) : StoredString := ⟨v, v, analyzeString (fun s => s) v, 0⟩

/-- Keys of the frequency association list. -/
def freqKeys (m : List (Nat × Nat)) : List Nat := m.map Prod.fst

/-- Sum of the counts of the frequency association list. -/
def freqTotal (m : List (Nat × Nat)) : Nat := (m.map Prod.snd).sum

/-- Declarative reading of the pattern `/longer than (\d+) characters/`
matching somewhere in a unit sequence, with `n` the value of the captured
digit run. -/
def hasLongerPattern (units : List Nat) (n : Nat) : Prop :=
  ∃ pre ds post,
    units = pre ++ ascii "longer than " ++ ds ++ ascii " characters" ++ post ∧
    ds ≠ [] ∧ (∀ c ∈ ds, isDigitCP c = true) ∧ digitsVal ds = n

def isOkE {ε α : Type} : Except ε α → Bool
  | .ok _ => true
  | .error _ => false

/-!
Helper lemmas about the embedded operations.
-/

theorem analyzeString_length (hash : JSStr → JSStr) (v : JSStr) :
    (analyzeString hash v).length = jsLength v := rfl

theorem analyzeString_is_palindrome (hash : JSStr → JSStr) (v : JSStr) :
    (analyzeString hash v).is_palindrome =
      (utf16 (v.map jsToLowerCP) == (utf16 (v.map jsToLowerCP)).reverse) := rfl

theorem analyzeString_unique (hash : JSStr → JSStr) (v : JSStr) :
    (analyzeString hash v).unique_characters = v.dedup.length := rfl

theorem analyzeString_sha256_hash (hash : JSStr → JSStr) (v : JSStr) :
    (analyzeString hash v).sha256_hash = hash v := rfl

theorem analyzeString_freq (hash : JSStr → JSStr) (v : JSStr) :
    (analyzeString hash v).character_frequency_map = v.foldl bump [] := rfl

theorem freqTotal_bump (m : List (Nat × Nat)) (c : Nat) :
    freqTotal (bump m c) = freqTotal m + 1 := by
  induction m with
  | nil => simp [bump, freqTotal]
  | cons p rest ih =>
    obtain ⟨k, n⟩ := p
    by_cases h : k = c <;> simp [bump, h, freqTotal] at ih ⊢ <;> omega

theorem mem_freqKeys_bump (m : List (Nat × Nat)) (c a : Nat) :
    a ∈ freqKeys (bump m c) ↔ a ∈ freqKeys m ∨ a = c := by
  induction m with
  | nil => simp [bump, freqKeys]
  | cons p rest ih =>
    obtain ⟨k, n⟩ := p
    by_cases h : k = c
    · subst h
      simp [bump, freqKeys]
      tauto
    · simp [bump, h, freqKeys] at ih ⊢
      tauto

theorem nodup_freqKeys_bump (m : List (Nat × Nat)) (c : Nat)
    (h : (freqKeys m).Nodup) : (freqKeys (bump m c)).Nodup := by
  induction m with
  | nil => simp [bump, freqKeys]
  | cons p rest ih =>
    obtain ⟨k, n⟩ := p
    simp only [freqKeys, List.map_cons, List.nodup_cons] at h
    by_cases hk : k = c
    · subst hk
      simpa [bump, freqKeys] using h
    · simp only [bump, if_neg hk, freqKeys, List.map_cons, List.nodup_cons]
      refine ⟨?_, ih h.2⟩
      intro hmem
      rcases (mem_freqKeys_bump rest c k).1 hmem with hin | heq
      · exact h.1 hin
      · exact hk heq

theorem freqTotal_foldl (v : JSStr) :
    ∀ acc, freqTotal (v.foldl bump acc) = freqTotal acc + v.length := by
  induction v with
  | nil => intro acc; simp
  | cons c cs ih =>
    intro acc
    simp only [List.foldl_cons, List.length_cons]
    rw [ih (bump acc c), freqTotal_bump]
    omega

theorem mem_freqKeys_foldl (v : JSStr) :
    ∀ acc a, a ∈ freqKeys (v.foldl bump acc) ↔ a ∈ freqKeys acc ∨ a ∈ v := by
  induction v with
  | nil => intro acc a; simp
  | cons c cs ih =>
    intro acc a
    simp only [List.foldl_cons, List.mem_cons]
    rw [ih, mem_freqKeys_bump]
    tauto

theorem nodup_freqKeys_foldl (v : JSStr) :
    ∀ acc, (freqKeys acc).Nodup → (freqKeys (v.foldl bump acc)).Nodup := by
  induction v with
  | nil => intro acc h; simpa using h
  | cons c cs ih => intro acc h; exact ih _ (nodup_freqKeys_bump _ _ h)

theorem length_eq_of_nodup_mem (l1 l2 : List Nat) (h1 : l1.Nodup) (h2 : l2.Nodup)
    (h : ∀ a, a ∈ l1 ↔ a ∈ l2) : l1.length = l2.length :=
  ((List.perm_ext_iff_of_nodup h1 h2).mpr h).length_eq

theorem utf16_length_eq (v : JSStr) :
    (utf16 v).length = v.length + v.countP (fun c => decide (0x10000 ≤ c)) := by
  induction v with
  | nil => simp [utf16]
  | cons c cs ih =>
    by_cases h : c < 0x10000
    · have hp : ¬ (0x10000 ≤ c) := by omega
      simp [utf16, h, List.countP_cons, hp, ih]
      omega
    · have hp : 0x10000 ≤ c := by omega
      simp [utf16, h, List.countP_cons, hp, ih]
      omega

theorem utf16_eq_self (v : JSStr) (h : ∀ c ∈ v, c < 0x10000) : utf16 v = v := by
  induction v with
  | nil => rfl
  | cons c cs ih =>
    have hc : c < 0x10000 := h c (by simp)
    simp only [utf16, if_pos hc, List.cons.injEq, true_and]
    exact ih (fun x hx => h x (by simp [hx]))

theorem jsToLowerCP_lt (c : Nat) (h : c < 0x10000) : jsToLowerCP c < 0x10000 := by
  simp only [jsToLowerCP]
  split <;> omega

theorem dropPat_some (p : List Nat) :
    ∀ s r, dropPat p s = some r → s = p ++ r := by
  induction p with
  | nil =>
    intro s r h
    simp only [dropPat, Option.some.injEq] at h
    simp [h]
  | cons a ps ih =>
    intro s r h
    match s with
    | [] => exact absurd h (by simp [dropPat])
    | c :: cs =>
      simp only [dropPat] at h
      split at h
      · next heq =>
        subst heq
        have := ih cs r h
        simp [this]
      · exact absurd h (by simp)

theorem dropPat_append (p r : List Nat) : dropPat p (p ++ r) = some r := by
  induction p with
  | nil => rfl
  | cons a ps ih => simp [dropPat, ih]

theorem isSub_of_here (pat s : List Nat) (h : (dropPat pat s).isSome = true) :
    isSub pat s = true := by
  match s with
  | [] => simpa [isSub] using h
  | c :: cs => simp [isSub, h]

theorem isSub_cons (pat : List Nat) (c : Nat) (cs : List Nat)
    (h : isSub pat cs = true) : isSub pat (c :: cs) = true := by
  simp [isSub, h]

theorem isSub_append (pat pre rest : List Nat) :
    isSub pat (pre ++ (pat ++ rest)) = true := by
  induction pre with
  | nil =>
    refine isSub_of_here _ _ ?_
    simp only [List.nil_append]
    rw [dropPat_append]
    rfl
  | cons a ps ih => exact isSub_cons _ a _ ih

theorem matchHere_some (s : List Nat) (n : Nat) (h : matchHere s = some n) :
    hasLongerPattern s n := by
  unfold matchHere at h
  split at h
  · exact absurd h (by simp)
  · next rest h1 =>
    by_cases hds : rest.takeWhile isDigitCP = []
    · rw [if_pos hds] at h
      exact absurd h (by simp)
    · rw [if_neg hds] at h
      split at h
      · exact absurd h (by simp)
      · next tail h2 =>
        have hn : digitsVal (rest.takeWhile isDigitCP) = n := by
          simpa using h
        have hs := dropPat_some _ _ _ h1
        have hr := dropPat_some _ _ _ h2
        have hsplit : rest.takeWhile isDigitCP ++ rest.dropWhile isDigitCP = rest :=
          List.takeWhile_append_dropWhile isDigitCP rest
        have hdig : ∀ c ∈ rest.takeWhile isDigitCP, isDigitCP c = true :=
          fun c hc => List.mem_takeWhile_imp hc
        refine ⟨[], rest.takeWhile isDigitCP, tail, ?_, hds, hdig, hn⟩
        rw [hs]
        conv_lhs => rw [← hsplit, hr]
        simp

theorem findLongerThan_some (units : List Nat) (n : Nat)
    (h : findLongerThan units = some n) : hasLongerPattern units n := by
  induction units with
  | nil => simp [findLongerThan] at h
  | cons c cs ih =>
    simp only [findLongerThan] at h
    rcases hm : matchHere (c :: cs) with _ | m <;> rw [hm] at h
    · obtain ⟨pre, ds, post, h1, h2, h3, h4⟩ := ih h
      exact ⟨c :: pre, ds, post, by simp [h1], h2, h3, h4⟩
    · have hmn : m = n := by simpa using h
      subst hmn
      exact matchHere_some _ _ hm

theorem parseNLFilters_min_length (lq : JSStr) :
    (parseNLFilters lq).min_length =
      (if includesStr lq (ascii "longer than") then
        (findLongerThan (utf16 lq)).map (fun n => n + 1)
       else none) := by
  by_cases h3 : includesStr lq (ascii "longer than") = true <;>
    rcases hf : findLongerThan (utf16 lq) with _ | n <;>
      simp [parseNLFilters, emptyNLFilters, h3, hf, apply_ite NLFilters.min_length]

theorem parseNLFilters_is_palindrome (lq : JSStr) :
    (parseNLFilters lq).is_palindrome =
      (if includesStr lq (ascii "not palindromic") then some false
       else if includesStr lq (ascii "palindromic") then some true
       else none) := by
  by_cases h1 : includesStr lq (ascii "not palindromic") = true <;>
    by_cases h2 : includesStr lq (ascii "palindromic") = true <;>
      by_cases h3 : includesStr lq (ascii "longer than") = true <;>
        rcases hf : findLongerThan (utf16 lq) with _ | n <;>
          simp [parseNLFilters, emptyNLFilters, h1, h2, h3, hf,
            apply_ite NLFilters.is_palindrome]

theorem parseNLFilters_word_count (lq : JSStr) :
    (parseNLFilters lq).word_count =
      (if includesStr lq (ascii "single word") then some 1 else none) := by
  by_cases h1 : includesStr lq (ascii "single word") = true <;>
    by_cases h3 : includesStr lq (ascii "longer than") = true <;>
      rcases hf : findLongerThan (utf16 lq) with _ | n <;>
        simp [parseNLFilters, emptyNLFilters, h1, h3, hf,
          apply_ite NLFilters.word_count]

/-!
Claim theorems.
-/

/-- C10: on the empty string the Property Analyzer returns length 0,
word count 0, unique-character count 0, an empty character-frequency map,
and classifies the empty string as a palindrome. -/
theorem c10_empty_string (hash : JSStr → JSStr) :
    analyzeString hash [] = ⟨0, true, 0, 0, hash [], []⟩ := rfl

/-- C2 (amended): for every analyzed string, the sum of the values of
`character_frequency_map` equals the number of CODE POINTS of the value, and
`unique_characters` equals the number of keys of the map; the sum equals the
stored `length` exactly when the value contains no supplementary-plane
character (each such character adds two code units to `length` but only one
occurrence to the frequency map). -/
theorem c2_frequency_invariants (hash : JSStr → JSStr) (v : JSStr) :
    ((analyzeString hash v).character_frequency_map.map Prod.snd).sum = v.length ∧
    (analyzeString hash v).unique_characters =
      (analyzeString hash v).character_frequency_map.length ∧
    ((∀ c ∈ v, c < 0x10000) →
      ((analyzeString hash v).character_frequency_map.map Prod.snd).sum =
        (analyzeString hash v).length) := by
  have hsum : ((analyzeString hash v).character_frequency_map.map Prod.snd).sum = v.length := by
    have h := freqTotal_foldl v []
    simpa [freqTotal, analyzeString_freq] using h
  refine ⟨hsum, ?_, ?_⟩
  · rw [analyzeString_unique, analyzeString_freq]
    have hkeys : (freqKeys (v.foldl bump [])).length = (v.foldl bump []).length := by
      simp [freqKeys]
    rw [← hkeys]
    refine length_eq_of_nodup_mem _ _ (List.nodup_dedup v)
      (nodup_freqKeys_foldl v [] (by simp [freqKeys])) ?_
    intro a
    rw [List.mem_dedup, mem_freqKeys_foldl]
    simp [freqKeys]
  · intro h
    rw [hsum, analyzeString_length, jsLength, utf16_eq_self v h]

/-- Witness for the hypothesis-bearing part of the C2 theorem at the concrete
input "hello". -/
theorem c2_frequency_invariants_witness :
    ((analyzeString (fun s => s) (ascii "hello")).character_frequency_map.map
      Prod.snd).sum = (analyzeString (fun s => s) (ascii "hello")).length :=
  (c2_frequency_invariants (fun s => s) (ascii "hello")).2.2 (by decide)

/-- C2 as stated is false: for the one-code-point string U+1F600 the
frequency values sum to 1 while the stored length is 2. -/
theorem c2_counterexample :
    ((analyzeString (fun s => s) [0x1F600]).character_frequency_map.map
      Prod.snd).sum ≠ (analyzeString (fun s => s) [0x1F600]).length := by decide

/-- C1 (amended): the frequency map is keyed by code points (its keys are
exactly the code points occurring in the value, so surrogate pairs are never
split there), but `length` counts UTF-16 code units (each supplementary-plane
code point counts twice), and the palindrome check compares the lower-cased
UTF-16 code-unit sequence with its reverse, which agrees with the code-point
reading only for strings without supplementary-plane characters. -/
theorem c1_code_point_handling (hash : JSStr → JSStr) (v : JSStr) :
    (analyzeString hash v).length =
      v.length + v.countP (fun c => decide (0x10000 ≤ c)) ∧
    ((∀ c ∈ v, c < 0x10000) →
      ((analyzeString hash v).is_palindrome = true ↔
        v.map jsToLowerCP = (v.map jsToLowerCP).reverse)) ∧
    (∀ c, c ∈ (analyzeString hash v).character_frequency_map.map Prod.fst ↔
      c ∈ v) := by
  refine ⟨?_, ?_, ?_⟩
  · rw [analyzeString_length, jsLength, utf16_length_eq]
  · intro h
    have hmap : ∀ c ∈ v.map jsToLowerCP, c < 0x10000 := by
      intro c hc
      obtain ⟨x, hx, hcx⟩ := List.mem_map.1 hc
      exact hcx ▸ jsToLowerCP_lt x (h x hx)
    rw [analyzeString_is_palindrome, utf16_eq_self _ hmap]
    simp
  · intro c
    have h := mem_freqKeys_foldl v [] c
    simp only [freqKeys] at h
    rw [analyzeString_freq]
    simpa using h

/-- Witness for the hypothesis-bearing part of the C1 theorem: "Level" is
all-BMP and its lower-cased code points form a palindrome, so the analyzer
reports a palindrome (the case-insensitivity example of the specification). -/
theorem c1_code_point_handling_witness :
    (analyzeString (fun s => s) (ascii "Level")).is_palindrome = true :=
  ((c1_code_point_handling (fun s => s) (ascii "Level")).2.1 (by decide)).mpr
    (by decide)

/-- C1 as stated is false: the one-code-point string U+1F600 has stored
length 2, not 1, and is not classified as a palindrome even though its
code-point sequence is its own reverse (the surrogate pair is split by the
palindrome check). -/
theorem c1_counterexample :
    (analyzeString (fun s => s) [0x1F600]).length ≠ List.length [0x1F600] ∧
    (analyzeString (fun s => s) [0x1F600]).is_palindrome = false ∧
    List.reverse [0x1F600] = [0x1F600] := by decide

/-- C3 (amended): the natural-language endpoint fails with `BadQuery` exactly
when the query string is empty; a whitespace-only query is NOT rejected (the
source only tests JavaScript falsiness of the query). -/
theorem c3_badquery_iff_empty (store : List StoredString) (q : JSStr) :
    nlHandler store q = Except.error Err.BadQuery ↔ q = [] := by
  constructor
  · intro h
    by_contra hq
    simp only [nlHandler] at h
    rw [if_neg hq] at h
    split at h
    · exact absurd h (by decide)
    · exact Except.noConfusion h
  · intro h
    subst h
    rfl

/-- C3 as stated is false: the single-space query is entirely whitespace yet
is accepted and answered (with an empty filter set), not rejected with
`BadQuery`. -/
theorem c3_counterexample :
    jsIsWS 0x20 = true ∧
    nlHandler [] [0x20] = Except.ok ⟨[], 0, ⟨[0x20], emptyNLFilters⟩⟩ ∧
    nlHandler [] [0x20] ≠ Except.error Err.BadQuery := by decide

/-- C8: inserting a value whose identity is already stored fails with
`Conflict` and leaves the store untouched; in particular a second insertion
of the same value right after a first one always fails with `Conflict` and
returns the store exactly as the first insertion left it. -/
theorem postStrings_eq (hash : JSStr → JSStr) (now : Nat)
    (store : List StoredString) (v : JSStr) :
    postStrings hash now store v =
      (if store.any (fun r => r.id == hash v) = true then
        (Except.error Err.Conflict, store)
       else
        (Except.ok ⟨hash v, v, analyzeString hash v, now⟩,
         store ++ [⟨hash v, v, analyzeString hash v, now⟩])) := rfl

theorem c8_duplicate_insert (hash : JSStr → JSStr) (now1 now2 : Nat)
    (store : List StoredString) (v : JSStr) :
    postStrings hash now2 (postStrings hash now1 store v).2 v =
      (Except.error Err.Conflict, (postStrings hash now1 store v).2) ∧
    (∀ r ∈ store, r.id = hash v →
      postStrings hash now1 store v = (Except.error Err.Conflict, store)) := by
  constructor
  · rw [postStrings_eq hash now1 store v]
    by_cases h : store.any (fun r => r.id == hash v) = true
    · rw [if_pos h, postStrings_eq]
      simp [h]
    · rw [if_neg h, postStrings_eq]
      simp only [Bool.not_eq_true] at h
      simp [List.any_append, h]
  · intro r hr hid
    have h : store.any (fun x => x.id == hash v) = true := by
      rw [List.any_eq_true]
      exact ⟨r, hr, by simp [hid]⟩
    rw [postStrings_eq, if_pos h]

/-- Witness for the hypothesis-bearing part of the C8 theorem: inserting the
one-character string "a" into a store that already holds its record yields
`Conflict` with the store unchanged. -/
theorem c8_duplicate_insert_witness :
    postStrings (fun s => s) 1 [mkRec [97]] [97] =
      (Except.error Err.Conflict, [mkRec [97]]) :=
  (c8_duplicate_insert (fun s => s) 1 0 [mkRec [97]] [97]).2 (mkRec [97])
    (by decide) (by decide)

/-- C9 (amended): with only `contains_character` present, a value that is not
exactly one UTF-16 code unit (in particular a single supplementary-plane
character, which occupies two units) fails with `InvalidFilterValue`, and a
one-unit value c returns exactly the stored records whose value contains c. -/
theorem c9_contains_character (store : List StoredString) (s : JSStr) :
    (jsLength s ≠ 1 →
      getStrings store ⟨none, none, none, none, some s⟩ =
        Except.error (Err.InvalidFilterValue "contains_character")) ∧
    (jsLength s = 1 →
      getStrings store ⟨none, none, none, none, some s⟩ =
        Except.ok (store.filter (fun r => includesStr r.value s))) := by
  constructor
  · intro h
    simp [getStrings, minLengthStage, maxLengthStage, wordCountStage,
      containsStage, h]
  · intro h
    simp [getStrings, minLengthStage, maxLengthStage, wordCountStage,
      containsStage, h]

/-- Witness for the C9 theorem at the specification's own example: a
two-character filter value is rejected, and filtering by "z" over the store
holding "zebra" and "apple" returns only "zebra". -/
theorem c9_contains_character_witness :
    getStrings [mkRec (ascii "zebra"), mkRec (ascii "apple")]
        ⟨none, none, none, none, some (ascii "zz")⟩ =
      Except.error (Err.InvalidFilterValue "contains_character") ∧
    getStrings [mkRec (ascii "zebra"), mkRec (ascii "apple")]
        ⟨none, none, none, none, some (ascii "z")⟩ =
      Except.ok [mkRec (ascii "zebra")] := by
  constructor
  · exact (c9_contains_character _ _).1 (by decide)
  · have h := (c9_contains_character
      [mkRec (ascii "zebra"), mkRec (ascii "apple")] (ascii "z")).2 (by decide)
    rw [h]
    decide

/-- C9 as stated is false: the filter value U+1F600 is a single character
(one code point) but is rejected with `InvalidFilterValue` instead of being
used for filtering, because the source tests `length !== 1` on code units. -/
theorem c9_counterexample :
    List.length [0x1F600] = 1 ∧
    getStrings [] ⟨none, none, none, none, some [0x1F600]⟩ =
      Except.error (Err.InvalidFilterValue "contains_character") := by decide

/-- C4 (amended): among the structured filters only the three numeric ones
are validated — a present `min_length`, `max_length` or `word_count` value on
which `parseInt` yields NaN fails with `InvalidFilterValue` naming that
filter (in source order) — while `is_palindrome` is never rejected: its value
is compared with the literal `true` and anything else is silently coerced to
`false` (and `parseInt` itself coerces values such as `-3` or `5x`, so only
values with no leading integer numeral are rejected). -/
theorem c4_filter_validation (store : List StoredString) (q : StructQuery)
    (s : JSStr) :
    (q.min_length = some s → jsParseInt s = none →
      getStrings store q = Except.error (Err.InvalidFilterValue "min_length")) ∧
    (q.min_length = none → q.max_length = some s → jsParseInt s = none →
      getStrings store q = Except.error (Err.InvalidFilterValue "max_length")) ∧
    (q.min_length = none → q.max_length = none → q.word_count = some s →
      jsParseInt s = none →
      getStrings store q = Except.error (Err.InvalidFilterValue "word_count")) ∧
    (getStrings store q ≠ Except.error (Err.InvalidFilterValue "is_palindrome")) ∧
    (getStrings store ⟨some s, none, none, none, none⟩ =
      Except.ok (store.filter
        (fun r => r.properties.is_palindrome == (s == ascii "true")))) := by
  refine ⟨?_, ?_, ?_, ?_, ?_⟩
  · intro h1 h2
    simp [getStrings, minLengthStage, h1, h2]
  · intro h0 h1 h2
    simp [getStrings, minLengthStage, maxLengthStage, h0, h1, h2]
  · intro h0 h1 h2 h3
    simp [getStrings, minLengthStage, maxLengthStage, wordCountStage, h0, h1, h2, h3]
  · intro h
    simp only [getStrings, minLengthStage, maxLengthStage, wordCountStage,
      containsStage] at h
    repeat' split at h
    all_goals first
      | exact Except.noConfusion h
      | exact absurd h (by decide)
  · rfl

/-- Witness for the hypothesis-bearing parts of the C4 theorem: the value "x"
has no leading numeral, so each numeric filter rejects it naming itself. -/
theorem c4_filter_validation_witness :
    getStrings [] ⟨none, some (ascii "x"), none, none, none⟩ =
      Except.error (Err.InvalidFilterValue "min_length") ∧
    getStrings [] ⟨none, none, some (ascii "x"), none, none⟩ =
      Except.error (Err.InvalidFilterValue "max_length") ∧
    getStrings [] ⟨none, none, none, some (ascii "x"), none⟩ =
      Except.error (Err.InvalidFilterValue "word_count") := by
  refine ⟨?_, ?_, ?_⟩
  · exact (c4_filter_validation [] _ (ascii "x")).1 rfl (by decide)
  · exact (c4_filter_validation [] _ (ascii "x")).2.1 rfl rfl (by decide)
  · exact (c4_filter_validation [] _ (ascii "x")).2.2.1 rfl rfl rfl (by decide)

/-- C4 as stated is false: the non-boolean `is_palindrome` value "yes" is not
rejected with `InvalidFilterValue`; it is coerced to `false`, which filters
out the palindromic record "aba". -/
theorem c4_counterexample :
    getStrings [mkRec (ascii "aba")] ⟨some (ascii "yes"), none, none, none, none⟩ =
      Except.ok [] ∧
    getStrings [mkRec (ascii "aba")] ⟨some (ascii "yes"), none, none, none, none⟩ ≠
      Except.error (Err.InvalidFilterValue "is_palindrome") := by decide

/-- C5: for every non-empty query, the natural-language endpoint fails with
`ConflictingFilters` exactly when the derived filter set contains both
`word_count = 1` and `is_palindrome = false`, independently of the store
contents; the error is returned instead of any data (the error constructor
carries no data field). -/
theorem c5_conflicting_filters (store : List StoredString) (q : JSStr)
    (h : q ≠ []) :
    nlHandler store q = Except.error Err.ConflictingFilters ↔
      ((parseNLFilters (q.map jsToLowerCP)).word_count = some 1 ∧
       (parseNLFilters (q.map jsToLowerCP)).is_palindrome = some false) := by
  simp only [nlHandler]
  rw [if_neg h]
  split
  · next hc => simp [hc]
  · next hc => simp [hc]

/-- Witness for the C5 theorem at the specification's own example query. -/
theorem c5_conflicting_filters_witness :
    nlHandler [] (ascii "find a single word that is not palindromic") =
      Except.error Err.ConflictingFilters :=
  (c5_conflicting_filters [] _ (by decide)).mpr (by decide)

/-- C6: a query matching "longer than N characters" (leftmost match of the
source regular expression, here `findLongerThan`, whose every successful
match really sits on such a substring, part 2) sets `min_length = N + 1`
(part 3); when
the "longer than" substring is present but the numeric pattern does not
match, no length filter is derived and the request still succeeds (unless the
independent conflict pair fires, part 4); and the specification example
"strings longer than 5 characters" derives `min_length = 6` and returns
exactly the records of length at least 6, for every store (part 1). -/
theorem c6_longer_than :
    (∀ store : List StoredString,
      nlHandler store (ascii "strings longer than 5 characters") =
        Except.ok ⟨store.filter (fun r => decide (6 ≤ r.properties.length)),
          (store.filter (fun r => decide (6 ≤ r.properties.length))).length,
          ⟨ascii "strings longer than 5 characters", ⟨none, none, none, some 6⟩⟩⟩) ∧
    (∀ units n, findLongerThan units = some n → hasLongerPattern units n) ∧
    (∀ (lq : JSStr) (n : Nat), findLongerThan (utf16 lq) = some n →
      (parseNLFilters lq).min_length = some (n + 1)) ∧
    (∀ (store : List StoredString) (q : JSStr),
      includesStr (q.map jsToLowerCP) (ascii "longer than") = true →
      findLongerThan (utf16 (q.map jsToLowerCP)) = none →
      (parseNLFilters (q.map jsToLowerCP)).min_length = none ∧
      (¬((parseNLFilters (q.map jsToLowerCP)).word_count = some 1 ∧
         (parseNLFilters (q.map jsToLowerCP)).is_palindrome = some false) →
        isOkE (nlHandler store q) = true)) := by
  refine ⟨?_, findLongerThan_some, ?_, ?_⟩
  · intro store
    have hq : (ascii "strings longer than 5 characters" : JSStr) ≠ [] := by decide
    have hlq : (ascii "strings longer than 5 characters").map jsToLowerCP =
        ascii "strings longer than 5 characters" := by decide
    have hpf : parseNLFilters (ascii "strings longer than 5 characters") =
        ⟨none, none, none, some 6⟩ := by decide
    simp only [nlHandler]
    rw [if_neg hq, hlq, hpf]
    simp
  · intro lq n h
    obtain ⟨pre, ds, post, h1, _, _, _⟩ := findLongerThan_some _ _ h
    have hinc : includesStr lq (ascii "longer than") = true := by
      unfold includesStr
      have hid : utf16 (ascii "longer than") = ascii "longer than" := by decide
      rw [hid, h1]
      have hsplit : (ascii "longer than " : List Nat) =
          ascii "longer than" ++ [0x20] := by decide
      rw [hsplit]
      have hsub := isSub_append (ascii "longer than") pre
        ([0x20] ++ ds ++ ascii " characters" ++ post)
      simpa [List.append_assoc] using hsub
    rw [parseNLFilters_min_length, if_pos hinc, h]
    rfl
  · intro store q hinc hf
    have hmin : (parseNLFilters (q.map jsToLowerCP)).min_length = none := by
      rw [parseNLFilters_min_length, if_pos hinc, hf]
      rfl
    refine ⟨hmin, ?_⟩
    intro hnc
    have hq : q ≠ [] := by
      intro he
      subst he
      exact absurd hinc (by decide)
    simp only [nlHandler]
    rw [if_neg hq, if_neg hnc]
    rfl

/-- Witness for the hypothesis-bearing parts of the C6 theorem at concrete
queries with and without a numeric pattern after "longer than". -/
theorem c6_longer_than_witness :
    hasLongerPattern (ascii "longer than 7 characters") 7 ∧
    (parseNLFilters (ascii "longer than 7 characters")).min_length = some 8 ∧
    (parseNLFilters ((ascii "longer than many characters").map jsToLowerCP)).min_length
      = none ∧
    isOkE (nlHandler [] (ascii "longer than many characters")) = true := by
  refine ⟨c6_longer_than.2.1 _ 7 (by decide), ?_, ?_, ?_⟩
  · exact c6_longer_than.2.2.1 (ascii "longer than 7 characters") 7 (by decide)
  · exact (c6_longer_than.2.2.2 [] (ascii "longer than many characters")
      (by decide) (by decide)).1
  · exact (c6_longer_than.2.2.2 [] (ascii "longer than many characters")
      (by decide) (by decide)).2 (by decide)

/-- C7: on the lower-cased query, presence of "not palindromic" always yields
`is_palindrome = false`, and presence of "palindromic" without "not
palindromic" yields `is_palindrome = true`; the negative rule wins whenever
both substrings occur (it is the later assignment in the source). -/
theorem c7_palindromic_rules (q : JSStr) :
    (includesStr (q.map jsToLowerCP) (ascii "not palindromic") = true →
      (parseNLFilters (q.map jsToLowerCP)).is_palindrome = some false) ∧
    (includesStr (q.map jsToLowerCP) (ascii "palindromic") = true →
      includesStr (q.map jsToLowerCP) (ascii "not palindromic") = false →
      (parseNLFilters (q.map jsToLowerCP)).is_palindrome = some true) := by
  constructor
  · intro h
    rw [parseNLFilters_is_palindrome, if_pos h]
  · intro h1 h2
    rw [parseNLFilters_is_palindrome, if_neg (by simp [h2]), if_pos h1]

/-- Witness for the C7 theorem on mixed-case queries exercising both rules
and the precedence of the negative one. -/
theorem c7_palindromic_rules_witness :
    (parseNLFilters ((ascii "NOT Palindromic ones").map jsToLowerCP)).is_palindrome
      = some false ∧
    (parseNLFilters ((ascii "only Palindromic ones").map jsToLowerCP)).is_palindrome
      = some true := by
  constructor
  · exact (c7_palindromic_rules (ascii "NOT Palindromic ones")).1 (by decide)
  · exact (c7_palindromic_rules (ascii "only Palindromic ones")).2
      (by decide) (by decide)
